import Mathlib

/-!
Shallow embedding of `src/SC-Scanner.py` (a secret-scanning orchestrator).

External collaborators are modelled as parameters:
* `loads : String → Option Json` abstracts `json.loads` on a single line
  (`none` means the line raises `json.JSONDecodeError`);
* `ProcOutcome` abstracts `subprocess.run` under a timeout
  (`timedOut` means `subprocess.TimeoutExpired` was raised, `completed s`
  means the process finished with stdout `s`);
* `CloneOutcome` abstracts `git.Repo.clone_from` (success or a raised
  exception);
* `which : String → Bool` abstracts `shutil.which` resolvability.

Python values decoded from JSON are modelled by the inductive `Json`;
Python `None` is `Option.none` at the result level, while JSON `null`
is `Json.null`.  Python dicts are association lists in insertion order.
-/

/-- Python whitespace for `str.strip()` (space, tab, newline, carriage
return, vertical tab, form feed). -/
def pyWhitespace (c : Char) : Bool :=
  c = ' ' || c = '\t' || c = '\n' || c = '\r' || c = '\x0b' || c = '\x0c'

/-- Python `str.strip()` on a character list: drop whitespace from both
ends. -/
def stripChars (l : List Char) : List Char :=
  ((l.dropWhile pyWhitespace).reverse.dropWhile pyWhitespace).reverse

/-- Python `str.strip()`. -/
def pyStrip (s : String) : String := String.mk (stripChars s.toList)

/-- Python `str.split(sep)` for a one-character separator (every
separator used by the source — `"\n"`, `"/"`, `"."` — is a single
character): split at every occurrence, keeping empty pieces, so the
result is always non-empty. -/
def splitChar (sep : Char) : List Char → List (List Char)
  | [] => [[]]
  | c :: rest =>
    if c = sep then [] :: splitChar sep rest
    else
      match splitChar sep rest with
      | [] => [c] :: []
      | g :: gs => (c :: g) :: gs

/-- Python `str.split(sep)` for a one-character separator. -/
def pySplit (sep : Char) (s : String) : List String :=
  (splitChar sep s.toList).map String.mk

/-- Python `line[:200]`. -/
def pyTake200 (s : String) : String := String.mk (s.toList.take 200)

/-- A decoded JSON value (the shape `json.loads` can produce). -/
inductive Json where
  | null
  | bool (b : Bool)
  | num (n : Int)
  | str (s : String)
  | arr (elems : List Json)
  | obj (fields : List (String × Json))

/-- Python truthiness of a decoded JSON value (`if data:` in the source). -/
def Json.truthy : Json → Bool
  | Json.null => false
  | Json.bool b => b
  | Json.num n => n != 0
  | Json.str s => s ≠ ""
  | Json.arr elems => !elems.isEmpty
  | Json.obj fields => !fields.isEmpty

/-- Python `len` on a decoded JSON value: defined for sized values
(lists, dicts, strings); `none` models the `TypeError` raised on
numbers, booleans and `None`. -/
def pyLen : Json → Option Nat
  | Json.arr elems => some elems.length
  | Json.obj fields => some fields.length
  | Json.str s => some s.length
  | _ => none

/-- Whether a decoded JSON value is a dict (only dicts have `.get` in
Python; anything else raises `AttributeError` on `.get`). -/
def Json.isObj : Json → Bool
  | Json.obj _ => true
  | _ => false

/-- First-match association-list lookup, the model of a Python dict
indexing/`.get` (Python dicts cannot hold duplicate keys, so first
match is exact). -/
def alookup {α : Type} (k : String) : List (String × α) → Option α
  | [] => none
  | p :: rest => if p.1 = k then some p.2 else alookup k rest

/-- The key walk of `run_tool` lines 108-110:
`for key in keys: data = data.get(key, {})`.
`Except.error ()` models the `AttributeError` raised when `data` is not
a dict. -/
def walkKeys (data : Json) : List String → Except Unit Json
  | [] => Except.ok data
  | k :: rest =>
    match data with
    | Json.obj fields => walkKeys ((alookup k fields).getD (Json.obj [])) rest
    | _ => Except.error ()

/-- Lines 102-114 of `run_tool`: given the configured `output_key` and the
decoded output records, produce the value `run_tool` returns (Python
`None` is `Option.none`; the `except AttributeError: return []` branch
returns the empty list `some (Json.arr [])`). -/
def extractResult (outputKey : Option String) (output : List Json) : Option Json :=
  match outputKey with
  | some key =>
    if key = "" then
      (if output.isEmpty then none else some (Json.arr output))
    else
      match walkKeys (output.headD (Json.obj [])) (pySplit '.' key) with
      | Except.error _ => some (Json.arr [])
      | Except.ok data => if data.truthy then some data else none
  | none => if output.isEmpty then none else some (Json.arr output)

/-- The outcome of `subprocess.run` under a timeout. -/
inductive ProcOutcome where
  | timedOut
  | completed (stdout : String)

/-- A line printed by `run_tool` (the timeout notice of line 87 and the
JSON-decode diagnostic of line 99, which embeds `line[:200]`). -/
inductive LogMsg where
  | timedOutLog (tool : String)
  | jsonErrorLog (tool : String) (linePref : String)

/-- Return value plus printed diagnostics of `run_tool`. -/
structure RunOutput where
  result : Option Json
  logs : List LogMsg

/-- Lines 94-97: decode each line with `json.loads`, stopping at the first
line that fails to parse (`Except.error` carries that offending line). -/
def parseLines (loads : String → Option Json) : List String → Except String (List Json)
  | [] => Except.ok []
  | l :: rest =>
    match loads l with
    | none => Except.error l
    | some j => (parseLines loads rest).map (fun js => j :: js)

/-- The non-blank lines of `result.stdout.strip().split('\n')`
(line 94 with the `if line.strip()` guard of line 95). -/
def nonBlankLines (stdout : String) : List String :=
  (pySplit '\n' (pyStrip stdout)).filter (fun l => pyStrip l ≠ "")

/-- Lines 76-114: `run_tool`.  The subprocess behaviour is the `proc`
parameter; the tool config lookup `TOOLS[tool_name]["output_key"]` is the
`outputKey` parameter.  On `subprocess.TimeoutExpired` the function
returns the string `"timeout"` (the sentinel); on a JSON decode error it
returns `None` and logs the offending line truncated to 200 characters. -/
def run_tool (loads : String → Option Json) (tool_name : String)
    (outputKey : Option String) (proc : ProcOutcome) : RunOutput :=
  match proc with
  | ProcOutcome.timedOut =>
    { result := some (Json.str "timeout"), logs := [LogMsg.timedOutLog tool_name] }
  | ProcOutcome.completed stdout =>
    if pyStrip stdout = "" then
      { result := extractResult outputKey [], logs := [] }
    else
      match parseLines loads (nonBlankLines stdout) with
      | Except.error l =>
        { result := none, logs := [LogMsg.jsonErrorLog tool_name (pyTake200 l)] }
      | Except.ok output => { result := extractResult outputKey output, logs := [] }

/-- Line 57: the Python comparison `tool_results == "timeout"`.  The
sentinel is the *string* `"timeout"`, so the comparison is true exactly
for the JSON string `"timeout"` (no other Python value compares equal
to it). -/
def isTimeoutSentinel : Option Json → Bool
  | some (Json.str s) => s = "timeout"
  | _ => false

/-- Lines 57-58: the status expression
`"Timed out" if tool_results == "timeout" else
 f"{len(tool_results)} findings" if tool_results else "Clean"`.
`none` models the `TypeError` that `len` raises on a truthy value with
no length (number / boolean). -/
def statusOf (res : Option Json) : Option String :=
  if isTimeoutSentinel res then some "Timed out"
  else
    match res with
    | none => some "Clean"
    | some v =>
      if v.truthy then (pyLen v).map (fun n => toString n ++ " findings")
      else some "Clean"

/-- One entry of the `TOOLS` registry (lines 16-27). -/
structure ToolConfig where
  command : String
  timeout : Nat
  output_key : Option String

/-- Lines 16-27: the static tool registry, in declaration order. -/
def TOOLS : List (String × ToolConfig) :=
  [("trufflehog",
    { command := "trufflehog git --only-verified --json \x7brepo_url\x7d",
      timeout := 3600, output_key := none }),
   ("gitleaks",
    { command := "gitleaks detect --source \x7brepo_dir\x7d --no-git --exit-code 0 --report-format json",
      timeout := 600, output_key := some "Findings" })]

/-- The per-repository result dict of `clone_and_scan` (lines 36-40);
`findings` and `status` are insertion-ordered dicts keyed by tool name. -/
structure ScanResult where
  findings : List (String × Option Json)
  status : List (String × String)
  error : Option String

/-- Stand-in for `str(e)` of the `TypeError` raised by `len` on a value
with no length (the exact Python text names the offending type and is a
runtime detail the claims do not depend on). -/
def lenErrText : String := "object has no len()"

/-- Lines 49-58: the tool loop of `clone_and_scan`.  For each tool the
result is stored in `findings` (line 56) and then the status expression
is evaluated (lines 57-58); if that expression raises (`statusOf` is
`none`), control jumps to the `except` of line 60, which records the
error and returns — entries recorded so far are kept. -/
def scanLoop (loads : String → Option Json) (exec : String → ProcOutcome)
    (repo_url : String) (acc : ScanResult) : List (String × ToolConfig) → ScanResult
  | [] => acc
  | (tool, config) :: rest =>
    let res := (run_tool loads tool config.output_key (exec tool)).result
    let acc1 : ScanResult := { acc with findings := acc.findings ++ [(tool, res)] }
    match statusOf res with
    | none =>
      { acc1 with error := some ("Error scanning " ++ repo_url ++ ": " ++ lenErrText) }
    | some st => scanLoop loads exec repo_url
        { acc1 with status := acc1.status ++ [(tool, st)] } rest

/-- Lines 35-63: `clone_and_scan`.  The clone outcome (line 44) is the
`clone` parameter: `none` models `clone_repo` returning `None`, in which
case the error is recorded and no tool runs. -/
def clone_and_scan (loads : String → Option Json) (clone : Option String)
    (exec : String → ProcOutcome) (repo_url : String) : ScanResult :=
  match clone with
  | none => { findings := [], status := [], error := some ("Clone failed: " ++ repo_url) }
  | some _ =>
    scanLoop loads exec repo_url { findings := [], status := [], error := none } TOOLS

/-- Python `seg.replace(".git", "")` specialised to the pattern `".git"`:
left-to-right, non-overlapping removal of every occurrence (line 67). -/
def stripGitAll : List Char → List Char
  | '.' :: 'g' :: 'i' :: 't' :: rest => stripGitAll rest
  | c :: rest => c :: stripGitAll rest
  | [] => []

/-- Line 67: `repo_url.split("/")[-1]`, the last path segment. -/
def lastSegment (repo_url : String) : String :=
  (pySplit '/' repo_url).getLastD ""

/-- Line 67: `repo_url.split("/")[-1].replace(".git", "")`, the name of
the clone destination subdirectory. -/
def repoDirName (repo_url : String) : String :=
  String.mk (stripGitAll (lastSegment repo_url).toList)

/-- Behaviour of `git.Repo.clone_from`: success, or a raised exception. -/
inductive CloneOutcome where
  | ok
  | raised (msg : String)

/-- Lines 65-74: `clone_repo`.  Every exception is caught and turned into
the failure signal `None`; on success the joined path is returned. -/
def clone_repo (outcome : CloneOutcome) (repo_url : String) (temp_dir : String) :
    Option String :=
  match outcome with
  | CloneOutcome.ok => some (temp_dir ++ "/" ++ repoDirName repo_url)
  | CloneOutcome.raised _ => none

/-- Python `', '.join(items)`. -/
def joinComma : List String → String
  | [] => ""
  | [t] => t
  | t :: rest => t ++ ", " ++ joinComma rest

/-- Whether `pat` occurs as a contiguous sublist of the second list. -/
def listContains (pat : List Char) : List Char → Bool
  | [] => pat.isEmpty
  | c :: rest => pat.isPrefixOf (c :: rest) || listContains pat rest

/-- Whether the string `pat` occurs as a substring of `s`. -/
def strContainsSub (pat s : String) : Bool := listContains pat.toList s.toList

/-- Lines 29-33: `check_tools_installed`.  `some msg` models
`exit(1)` after printing `msg`; `none` means the check passed and the
run continues. -/
def check_tools_installed (which : String → Bool) : Option String :=
  let missing_tools := (TOOLS.map Prod.fst).filter (fun t => !(which t))
  if missing_tools = [] then none
  else some ("Missing tools: " ++ joinComma missing_tools)

/-- Lines 169-170: `[line.strip() for line in f if line.strip()]`. -/
def readRepos (fileLines : List String) : List String :=
  (fileLines.filter (fun l => pyStrip l ≠ "")).map pyStrip

/-- Lines 172-173: one task is submitted per URL read from the file (a
task is submitted for every occurrence, duplicates included); each task
computes `clone_and_scan` for its URL. -/
def dispatch (loads : String → Option Json) (clone : String → Option String)
    (exec : String → String → ProcOutcome) (fileLines : List String) :
    List (String × ScanResult) :=
  (readRepos fileLines).map (fun url => (url, clone_and_scan loads (clone url) (exec url) url))

/-- Python dict assignment `global_report[repo_url] = result` (line 179)
on an insertion-ordered association list: overwrite in place when the
key is present, append otherwise. -/
def dictInsert (m : List (String × ScanResult)) (k : String) (v : ScanResult) :
    List (String × ScanResult) :=
  if m.any (fun p => p.1 = k) then m.map (fun p => if p.1 = k then (k, v) else p)
  else m ++ [(k, v)]

/-- Lines 175-181: the coordinating thread folds completed tasks into
`global_report` in completion order.  The completion order of
`as_completed` is arbitrary, so the fold is stated over an arbitrary
completion sequence `completions`. -/
def buildReport (completions : List (String × ScanResult)) : List (String × ScanResult) :=
  completions.foldl (fun m c => dictInsert m c.1 c.2) []

/-- Lines 165-184: `main` up to the global report.  `Except.error msg`
models `exit(1)` inside `check_tools_installed` (no repository is
processed on that path); otherwise the report is built from the
dispatched tasks (here collected in dispatch order; order-dependence of
the dict fold is treated separately via `buildReport`). -/
def mainModel (which : String → Bool) (loads : String → Option Json)
    (clone : String → Option String) (exec : String → String → ProcOutcome)
    (fileLines : List String) : Except String (List (String × ScanResult)) :=
  match check_tools_installed which with
  | some msg => Except.error msg
  | none => Except.ok (buildReport (dispatch loads clone exec fileLines))

/-- Follows the spec's words ("with a `.git` suffix stripped"): remove
`".git"` only when it is the trailing four characters. -/
def stripSuffixGit : List Char → List Char
  | ['.', 'g', 'i', 't'] => []
  | c :: rest => c :: stripSuffixGit rest
  | [] => []

/-- Whether the four-character pattern `".git"` occurs anywhere in the
list. -/
def hasGit : List Char → Bool
  | '.' :: 'g' :: 'i' :: 't' :: _ => true
  | _ :: rest => hasGit rest
  | [] => false

/-- The message recorded by line 61 when the tool loop raises. -/
def scanErr (url : String) : String :=
  "Error scanning " ++ url ++ ": " ++ lenErrText

/-- A `json.loads` oracle on which every line fails to parse. -/
def loadsNone : String → Option Json := fun _ => none

/-- A `json.loads` oracle for the concrete gitleaks stdout lines used in
the concrete scenarios below. -/
def loadsGl : String → Option Json := fun s =>
  if s = "\x7b\"Findings\": 7\x7d" then
    some (Json.obj [("Findings", Json.num 7)])
  else if s = "\x7b\"Findings\": [\x7b\"RuleID\": \"X\"\x7d]\x7d" then
    some (Json.obj [("Findings", Json.arr [Json.obj [("RuleID", Json.str "X")]])])
  else if s = "\x7b\"Findings\": []\x7d" then
    some (Json.obj [("Findings", Json.arr [])])
  else none

/-- Subprocess behaviour: trufflehog prints nothing, gitleaks prints a
report whose `Findings` value is the number `7`. -/
def execGl7 : String → ProcOutcome := fun t =>
  if t = "gitleaks" then ProcOutcome.completed "\x7b\"Findings\": 7\x7d"
  else ProcOutcome.completed ""

/-- Subprocess behaviour: every tool exceeds its timeout. -/
def execTimeoutAll : String → ProcOutcome := fun _ => ProcOutcome.timedOut

/-- Subprocess behaviour: every tool completes with empty stdout. -/
def execClean : String → ProcOutcome := fun _ => ProcOutcome.completed ""

/-- A `shutil.which` with only trufflehog resolvable. -/
def whichOnlyTruffle : String → Bool := fun t => t = "trufflehog"

/-- A `shutil.which` resolving both tools. -/
def whichAll : String → Bool := fun _ => true

/-- A clone behaviour on which every clone fails. -/
def cloneFailAll : String → Option String := fun _ => none

/-! ### Helper lemmas -/

lemma hasGit_cons_false {c : Char} {l : List Char} (h : hasGit (c :: l) = false) :
    hasGit l = false := by
  unfold hasGit at h
  split at h
  · exact absurd h (by simp)
  · rename_i c2 rest heq
    injection heq with h1 h2
    subst h2
    exact h
  · rename_i heq
    exact absurd heq (by simp)

lemma stripGitAll_cons_ne (c : Char) (rest : List Char)
    (h2 : ∀ (r : List Char), c = '.' → rest = 'g' :: 'i' :: 't' :: r → False) :
    stripGitAll (c :: rest) = c :: stripGitAll rest := by
  rw [stripGitAll.eq_def]
  split
  · rename_i r heq
    injection heq with e1 e2
    exact (h2 r e1 e2).elim
  · rename_i c2 rest2 heq
    injection heq with e1 e2
    subst e1; subst e2
    rfl
  · rename_i heq
    exact absurd heq (by simp)

lemma stripSuffixGit_cons_ne (c : Char) (rest : List Char)
    (hne : ¬ (c :: rest = ['.', 'g', 'i', 't'])) :
    stripSuffixGit (c :: rest) = c :: stripSuffixGit rest := by
  rw [stripSuffixGit.eq_def]
  split
  · rename_i heq
    exact absurd heq hne
  · rename_i c2 rest2 heq
    injection heq with e1 e2
    subst e1; subst e2
    rfl
  · rename_i heq
    exact absurd heq (by simp)

lemma stripGitAll_eq_suffix : ∀ (l : List Char), hasGit l.dropLast = false →
    stripGitAll l = stripSuffixGit l := by
  intro l
  induction l using stripGitAll.induct with
  | case1 rest ih =>
    intro h
    cases rest with
    | nil => rfl
    | cons r rs =>
      exfalso
      simp only [List.dropLast] at h
      simp [hasGit] at h
  | case2 c rest h2 ih =>
    intro h
    have hrest : hasGit rest.dropLast = false := by
      cases rest with
      | nil => rfl
      | cons r rs =>
        have hd : (c :: r :: rs).dropLast = c :: (r :: rs).dropLast := rfl
        rw [hd] at h
        exact hasGit_cons_false h
    have hne : ¬ (c :: rest = ['.', 'g', 'i', 't']) := by
      intro he
      injection he with e1 e2
      exact h2 [] e1 e2
    rw [stripGitAll_cons_ne c rest h2, stripSuffixGit_cons_ne c rest hne, ih hrest]
  | case3 => intro _; rfl

lemma clone_and_scan_some_eq (loads : String → Option Json) (exec : String → ProcOutcome)
    (url d : String) :
    clone_and_scan loads (some d) exec url =
      (match statusOf (run_tool loads "trufflehog" none (exec "trufflehog")).result with
       | none =>
         { findings := [("trufflehog", (run_tool loads "trufflehog" none (exec "trufflehog")).result)],
           status := [], error := some (scanErr url) }
       | some st1 =>
         match statusOf (run_tool loads "gitleaks" (some "Findings") (exec "gitleaks")).result with
         | none =>
           { findings := [("trufflehog", (run_tool loads "trufflehog" none (exec "trufflehog")).result),
                          ("gitleaks", (run_tool loads "gitleaks" (some "Findings") (exec "gitleaks")).result)],
             status := [("trufflehog", st1)], error := some (scanErr url) }
         | some st2 =>
           { findings := [("trufflehog", (run_tool loads "trufflehog" none (exec "trufflehog")).result),
                          ("gitleaks", (run_tool loads "gitleaks" (some "Findings") (exec "gitleaks")).result)],
             status := [("trufflehog", st1), ("gitleaks", st2)], error := none }) := by
  show scanLoop loads exec url { findings := [], status := [], error := none } TOOLS = _
  rw [TOOLS]
  rw [scanLoop]
  cases h1 : statusOf (run_tool loads "trufflehog" none (exec "trufflehog")).result with
  | none => simp [scanErr]
  | some st1 =>
    simp only []
    rw [scanLoop]
    cases h2 : statusOf (run_tool loads "gitleaks" (some "Findings") (exec "gitleaks")).result with
    | none => simp [scanLoop, scanErr]
    | some st2 => simp [scanLoop, scanErr]

lemma isTimeoutSentinel_eq_true {res : Option Json} (h : isTimeoutSentinel res = true) :
    res = some (Json.str "timeout") := by
  unfold isTimeoutSentinel at h
  split at h
  · rename_i s
    simp at h
    subst h
    rfl
  · exact absurd h (by simp)

lemma statusOf_sentinel : statusOf (some (Json.str "timeout")) = some "Timed out" := rfl

lemma run_tool_timedOut (loads : String → Option Json) (tool : String) (k : Option String) :
    (run_tool loads tool k ProcOutcome.timedOut).result = some (Json.str "timeout") := rfl

lemma statusOf_nokey_isSome (loads : String → Option Json) (tool : String) (p : ProcOutcome) :
    (statusOf (run_tool loads tool none p).result).isSome := by
  cases p with
  | timedOut => rfl
  | completed s =>
    unfold run_tool
    by_cases hb : pyStrip s = ""
    · simp [hb, extractResult, statusOf, isTimeoutSentinel]
    · simp only [hb, if_false]
      cases hp : parseLines loads (nonBlankLines s) with
      | error l => simp [statusOf, isTimeoutSentinel]
      | ok out =>
        simp only [extractResult]
        by_cases ho : out.isEmpty
        · simp [ho, statusOf, isTimeoutSentinel]
        · simp [ho, statusOf, isTimeoutSentinel, Json.truthy, pyLen]

lemma statusOf_spec {res : Option Json} {st : String} (h : statusOf res = some st) :
    (isTimeoutSentinel res = true → st = "Timed out") ∧
    (isTimeoutSentinel res = false → ∀ v, res = some v → v.truthy = true →
       ∃ n, pyLen v = some n ∧ st = toString n ++ " findings") ∧
    ((res = none ∨ ∃ v, res = some v ∧ v.truthy = false) → st = "Clean") := by
  unfold statusOf at h
  by_cases hs : isTimeoutSentinel res = true
  · rw [if_pos hs] at h
    injection h with h
    subst h
    refine ⟨fun _ => rfl, fun hf => absurd hs (by simp [hf]), ?_⟩
    intro hd
    exfalso
    have hres := isTimeoutSentinel_eq_true hs
    rcases hd with hnone | ⟨v, hv, htr⟩
    · rw [hres] at hnone; exact absurd hnone (by simp)
    · rw [hres] at hv
      injection hv with hv
      subst hv
      simp [Json.truthy] at htr
  · rw [if_neg hs] at h
    cases res with
    | none =>
      injection h with h
      subst h
      exact ⟨fun ht => absurd ht hs, fun _ v hv => by simp at hv, fun _ => rfl⟩
    | some v =>
      have h2 : (if v.truthy = true then Option.map (fun n => toString n ++ " findings") (pyLen v)
          else some "Clean") = some st := h
      by_cases htr : v.truthy = true
      · rw [if_pos htr] at h2
        cases hpl : pyLen v with
        | none => rw [hpl] at h2; exact absurd h2 (by simp)
        | some n =>
          rw [hpl] at h2
          have h3 : some (toString n ++ " findings") = some st := h2
          injection h3 with h2
          refine ⟨fun ht => absurd ht hs, ?_, ?_⟩
          · intro _ w hw _
            injection hw with hw
            subst hw
            exact ⟨n, hpl, h2.symm⟩
          · intro hd
            rcases hd with hnone | ⟨w, hw, hwf⟩
            · exact absurd hnone (by simp)
            · injection hw with hw
              subst hw
              rw [htr] at hwf
              exact absurd hwf (by simp)
      · rw [if_neg htr] at h2
        injection h2 with h2
        subst h2
        refine ⟨fun ht => absurd ht hs, ?_, fun _ => rfl⟩
        intro _ w hw hwt
        injection hw with hw
        subst hw
        exact absurd hwt htr

lemma alookup_map_update {url k : String} {v : ScanResult}
    (hne : url ≠ k) (m : List (String × ScanResult)) :
    alookup url (m.map (fun p => if p.1 = k then (k, v) else p)) = alookup url m := by
  induction m with
  | nil => rfl
  | cons p rest ih =>
    by_cases hp : p.1 = k
    · simp only [List.map_cons, if_pos hp, alookup]
      rw [if_neg (by intro he; exact hne (he ▸ rfl)), if_neg (by rw [hp]; intro he; exact hne he.symm)]
      exact ih
    · simp only [List.map_cons, if_neg hp, alookup]
      by_cases hq : p.1 = url
      · rw [if_pos hq, if_pos hq]
      · rw [if_neg hq, if_neg hq]
        exact ih

lemma alookup_map_update_found {k : String} {v : ScanResult} (m : List (String × ScanResult))
    (hmem : m.any (fun p => p.1 = k) = true) :
    alookup k (m.map (fun p => if p.1 = k then (k, v) else p)) = some v := by
  induction m with
  | nil => simp at hmem
  | cons p rest ih =>
    by_cases hp : p.1 = k
    · simp [List.map_cons, if_pos hp, alookup]
    · simp only [List.map_cons, if_neg hp, alookup, if_neg hp]
      apply ih
      simp only [List.any_cons] at hmem
      rcases Bool.or_eq_true_iff.mp hmem with h1 | h2
      · exact absurd (of_decide_eq_true h1) hp
      · exact h2

lemma alookup_append_single {url k : String} {v : ScanResult} (m : List (String × ScanResult)) :
    alookup url (m ++ [(k, v)]) =
      match alookup url m with
      | some w => some w
      | none => if k = url then some v else none := by
  induction m with
  | nil => rfl
  | cons p rest ih =>
    simp only [List.cons_append, alookup]
    by_cases hq : p.1 = url
    · rw [if_pos hq, if_pos hq]
    · rw [if_neg hq, if_neg hq]
      exact ih

lemma alookup_dictInsert (m : List (String × ScanResult)) (k url : String) (v : ScanResult) :
    alookup url (dictInsert m k v) = if url = k then some v else alookup url m := by
  unfold dictInsert
  by_cases hmem : m.any (fun p => decide (p.1 = k)) = true
  · rw [if_pos hmem]
    by_cases he : url = k
    · subst he
      rw [if_pos rfl]
      exact alookup_map_update_found m hmem
    · rw [if_neg he]
      exact alookup_map_update he m
  · rw [if_neg hmem]
    rw [alookup_append_single m]
    by_cases he : url = k
    · subst he
      have hnone : alookup url m = none := by
        induction m with
        | nil => rfl
        | cons p rest ih =>
          simp only [List.any_cons, Bool.or_eq_true_iff, not_or] at hmem
          simp only [alookup]
          rw [if_neg (fun hh => hmem.1 (decide_eq_true hh))]
          exact ih hmem.2
      rw [hnone, if_pos rfl]
    · rw [if_neg he]
      cases alookup url m with
      | some w => rfl
      | none => rw [if_neg (fun hh => he hh.symm)]

lemma buildReport_concat (cs : List (String × ScanResult)) (c : String × ScanResult) :
    buildReport (cs ++ [c]) = dictInsert (buildReport cs) c.1 c.2 := by
  unfold buildReport
  rw [List.foldl_append]
  rfl

lemma dictInsert_keys_map (m : List (String × ScanResult)) (k : String) (v : ScanResult) :
    (m.map (fun p => if p.1 = k then (k, v) else p)).map Prod.fst = m.map Prod.fst := by
  induction m with
  | nil => rfl
  | cons p rest ih =>
    simp only [List.map_cons]
    by_cases hp : p.1 = k
    · rw [if_pos hp, ih]
      simp [hp]
    · rw [if_neg hp, ih]

lemma alookup_none_of_not_mem {url : String} (m : List (String × ScanResult))
    (h : url ∉ m.map Prod.fst) : alookup url m = none := by
  induction m with
  | nil => rfl
  | cons p rest ih =>
    simp only [List.map_cons, List.mem_cons, not_or] at h
    simp only [alookup]
    rw [if_neg (fun hh => h.1 hh.symm)]
    exact ih h.2

lemma dictInsert_nodup (m : List (String × ScanResult)) (k : String) (v : ScanResult)
    (h : (m.map Prod.fst).Nodup) : ((dictInsert m k v).map Prod.fst).Nodup := by
  unfold dictInsert
  by_cases hmem : m.any (fun p => decide (p.1 = k)) = true
  · rw [if_pos hmem, dictInsert_keys_map]
    exact h
  · rw [if_neg hmem]
    rw [List.map_append]
    rw [List.nodup_append]
    refine ⟨h, List.nodup_singleton k, ?_⟩
    intro a ha hb
    simp only [List.map_cons, List.map_nil, List.mem_singleton] at hb
    subst hb
    have : ∃ p ∈ m, p.1 = a := by
      rcases List.mem_map.mp ha with ⟨p, hp, he⟩
      exact ⟨p, hp, he⟩
    rcases this with ⟨p, hp, he⟩
    apply hmem
    rw [List.any_eq_true]
    exact ⟨p, hp, decide_eq_true he⟩

lemma buildReport_keys_nodup (cs : List (String × ScanResult)) :
    ((buildReport cs).map Prod.fst).Nodup := by
  induction cs using List.reverseRecOn with
  | nil => exact List.nodup_nil
  | append_singleton rest c ih =>
    rw [buildReport_concat]
    exact dictInsert_nodup _ _ _ ih

lemma alookup_buildReport (cs : List (String × ScanResult)) (url : String) :
    alookup url (buildReport cs) =
      ((cs.filter (fun p => p.1 = url)).getLast?).map Prod.snd := by
  induction cs using List.reverseRecOn with
  | nil => rfl
  | append_singleton rest c ih =>
    rw [buildReport_concat, alookup_dictInsert, List.filter_append]
    by_cases hc : c.1 = url
    · rw [if_pos hc.symm]
      have hf : List.filter (fun p => decide (p.1 = url)) [c] = [c] := by
        simp [hc]
      rw [hf]
      rw [List.getLast?_concat]
      rfl
    · rw [if_neg (fun hh => hc hh.symm)]
      have hf : List.filter (fun p => decide (p.1 = url)) [c] = [] := by
        simp [hc]
      rw [hf, List.append_nil]
      exact ih

lemma filter_map_pair (f : String → ScanResult) (urls : List String) (url : String) :
    (urls.map (fun u => (u, f u))).filter (fun p => p.1 = url) =
      (urls.filter (fun u => u = url)).map (fun u => (u, f u)) := by
  induction urls with
  | nil => rfl
  | cons u us ih =>
    simp only [List.map_cons, List.filter_cons]
    by_cases hu : u = url
    · simp only [hu, decide_True, if_true, List.map_cons]
      rw [ih]
    · simp only [hu, decide_False, if_false]
      exact ih

lemma filter_const_getLast {url : String} (urls : List String) (h : url ∈ urls) :
    (urls.filter (fun u => u = url)).getLast? = some url := by
  induction urls using List.reverseRecOn with
  | nil => simp at h
  | append_singleton rest u ih =>
    rw [List.filter_append]
    by_cases hu : u = url
    · have hf : List.filter (fun v => decide (v = url)) [u] = [u] := by simp [hu]
      rw [hf, List.getLast?_concat, hu]
    · have hf : List.filter (fun v => decide (v = url)) [u] = [] := by simp [hu]
      rw [hf, List.append_nil]
      apply ih
      rcases List.mem_append.mp h with h1 | h2
      · exact h1
      · exact absurd (List.mem_singleton.mp h2) (fun hh => hu hh.symm)

lemma alookup_dispatch {url : String} (f : String → ScanResult) (urls : List String)
    (h : url ∈ urls) :
    alookup url (buildReport (urls.map (fun u => (u, f u)))) = some (f url) := by
  rw [alookup_buildReport, filter_map_pair]
  rw [List.getLast?_map]
  rw [filter_const_getLast urls h]
  rfl

/-! ### Claim theorems -/

lemma parseLines_error_mem {loads : String → Option Json} :
    ∀ {ls : List String} {l : String}, parseLines loads ls = Except.error l → l ∈ ls := by
  intro ls
  induction ls with
  | nil => intro l h; exact absurd h (by simp [parseLines])
  | cons l0 rest ih =>
    intro l h
    unfold parseLines at h
    cases hl : loads l0 with
    | none =>
      rw [hl] at h
      injection h with h
      subst h
      exact List.mem_cons_self l0 rest
    | some j =>
      rw [hl] at h
      cases hp : parseLines loads rest with
      | error l2 =>
        rw [hp] at h
        have h2 : Except.error (ε := String) (α := List Json) l2 = Except.error l := h
        injection h2 with h2
        subst h2
        exact List.mem_cons_of_mem l0 (ih hp)
      | ok out =>
        rw [hp] at h
        exact absurd h (by simp [Except.map])

/-- C2: for the tool profile configured with output-key path `"Findings"`,
the runner takes the first decoded record, walks the path key-by-key with
an empty-dict default at a missing key, and returns the final value only
if it is non-empty (truthy), else `None`; in particular stdout
consisting of the object with `"Findings": [{"RuleID": "X"}]` yields that
one-element list and `"Findings": []` yields `None`. -/
theorem C2_nested_key_extraction :
    (∀ (fields : List (String × Json)) (rest : List Json),
        extractResult (some "Findings") (Json.obj fields :: rest) =
          (if ((alookup "Findings" fields).getD (Json.obj [])).truthy then
             some ((alookup "Findings" fields).getD (Json.obj []))
           else none)) ∧
    (run_tool loadsGl "gitleaks" (some "Findings")
        (ProcOutcome.completed "\x7b\"Findings\": [\x7b\"RuleID\": \"X\"\x7d]\x7d")).result =
      some (Json.arr [Json.obj [("RuleID", Json.str "X")]]) ∧
    (run_tool loadsGl "gitleaks" (some "Findings")
        (ProcOutcome.completed "\x7b\"Findings\": []\x7d")).result = none := by
  exact ⟨fun fields rest => rfl, rfl, rfl⟩

/-- C9: when the first decoded record is not a JSON object, the key walk
raises `AttributeError`, which `run_tool` catches and converts to the
empty list, so the status computed for the pair is "Clean". -/
theorem C9_non_dict_record (v : Json) (rest : List Json) (h : v.isObj = false) :
    extractResult (some "Findings") (v :: rest) = some (Json.arr []) ∧
    statusOf (some (Json.arr [])) = some "Clean" := by
  refine ⟨?_, rfl⟩
  cases v with
  | obj fields => exact absurd h (by simp [Json.isObj])
  | null => rfl
  | bool b => rfl
  | num n => rfl
  | str s => rfl
  | arr elems => rfl

/-- Witness for C9_non_dict_record at a top-level JSON array record. -/
theorem C9_witness :
    extractResult (some "Findings") [Json.arr [Json.num 1]] = some (Json.arr []) ∧
    statusOf (some (Json.arr [])) = some "Clean" :=
  C9_non_dict_record (Json.arr [Json.num 1]) [] rfl

lemma run_tool_completed (loads : String → Option Json) (tool : String)
    (outputKey : Option String) (stdout : String) :
    run_tool loads tool outputKey (ProcOutcome.completed stdout) =
      (if pyStrip stdout = "" then { result := extractResult outputKey [], logs := [] }
       else
         match parseLines loads (nonBlankLines stdout) with
         | Except.error l => { result := none, logs := [LogMsg.jsonErrorLog tool (pyTake200 l)] }
         | Except.ok output => { result := extractResult outputKey output, logs := [] }) := rfl

/-- C5: when non-empty stdout fails to parse as line-delimited JSON,
`run_tool` returns `None` (so the pair reads as "Clean", distinct from
the timeout sentinel) and logs a diagnostic carrying the first 200
characters of the offending line, which is one of the stdout lines. -/
theorem C5_decode_failure (loads : String → Option Json) (tool : String)
    (outputKey : Option String) (stdout l : String)
    (herr : parseLines loads (nonBlankLines stdout) = Except.error l)
    (hne : pyStrip stdout ≠ "") :
    run_tool loads tool outputKey (ProcOutcome.completed stdout) =
      { result := none, logs := [LogMsg.jsonErrorLog tool (pyTake200 l)] } ∧
    l ∈ nonBlankLines stdout ∧
    statusOf none = some "Clean" ∧
    isTimeoutSentinel none = false := by
  refine ⟨?_, parseLines_error_mem herr, rfl, rfl⟩
  rw [run_tool_completed, if_neg hne, herr]

/-- Witness for C5_decode_failure at the unparseable stdout "oops". -/
theorem C5_witness :
    run_tool loadsNone "trufflehog" none (ProcOutcome.completed "oops") =
      { result := none, logs := [LogMsg.jsonErrorLog "trufflehog" (pyTake200 "oops")] } ∧
    "oops" ∈ nonBlankLines "oops" ∧
    statusOf none = some "Clean" ∧
    isTimeoutSentinel none = false :=
  C5_decode_failure loadsNone "trufflehog" none "oops" "oops" rfl (by decide)

/-- C8 counterexample: for the URL `https://host/my.gitrepo.git` the code
names the clone directory `myrepo` — every `.git` occurrence is removed —
whereas stripping only a trailing `.git` suffix would give `my.gitrepo`. -/
theorem C8_counterexample :
    repoDirName "https://host/my.gitrepo.git" = "myrepo" ∧
    String.mk (stripSuffixGit (lastSegment "https://host/my.gitrepo.git").toList) = "my.gitrepo" ∧
    ¬ (repoDirName "https://host/my.gitrepo.git" =
        String.mk (stripSuffixGit (lastSegment "https://host/my.gitrepo.git").toList)) := by
  refine ⟨rfl, rfl, ?_⟩
  decide

/-- C8 amended: the clone destination subdirectory is named after the
last path segment with every occurrence of `".git"` removed; whenever
`".git"` does not occur before the final character of the segment (so at
most as the trailing suffix), this coincides with stripping the trailing
`".git"` suffix. -/
theorem C8_amended (url : String)
    (h : hasGit ((lastSegment url).toList.dropLast) = false) :
    repoDirName url = String.mk (stripSuffixGit (lastSegment url).toList) := by
  unfold repoDirName
  rw [stripGitAll_eq_suffix _ h]

/-- Witness for C8_amended at a URL whose last segment ends in ".git". -/
theorem C8_amended_witness :
    repoDirName "https://h/repo.git" =
      String.mk (stripSuffixGit (lastSegment "https://h/repo.git").toList) :=
  C8_amended "https://h/repo.git" (by decide)

/-- C7: the list of URLs dispatched for scanning is exactly the stripped
non-blank lines of the input file, in order — blank lines are ignored and
duplicates are kept, one independent task per occurrence. -/
theorem C7_dispatched_urls :
    (∀ fileLines : List String,
        readRepos fileLines = (fileLines.map pyStrip).filter (fun s => s ≠ "")) ∧
    (∀ (loads : String → Option Json) (clone : String → Option String)
        (exec : String → String → ProcOutcome) (fileLines : List String),
        (dispatch loads clone exec fileLines).map Prod.fst = readRepos fileLines) := by
  constructor
  · intro fileLines
    induction fileLines with
    | nil => rfl
    | cons l rest ih =>
      simp only [readRepos, List.filter_cons, List.map_cons, ne_eq, decide_not] at ih ⊢
      by_cases hl : pyStrip l = ""
      · simp [hl, ih]
      · simp [hl, ih]
  · intro loads clone exec fileLines
    unfold dispatch
    induction readRepos fileLines with
    | nil => rfl
    | cons u us ih =>
      simp only [List.map_cons, ih]

/-- C3: a failed clone is a returned failure signal, not an exception;
the repository entry then has a non-null error, empty findings and
status maps (no tool runs), and that is the entry in the final report. -/
theorem C3_clone_failure :
    (∀ msg url temp_dir, clone_repo (CloneOutcome.raised msg) url temp_dir = none) ∧
    (∀ (loads : String → Option Json) (exec : String → ProcOutcome) (url : String),
        clone_and_scan loads none exec url =
          { findings := [], status := [], error := some ("Clone failed: " ++ url) }) ∧
    (∀ (which : String → Bool) (loads : String → Option Json)
        (clone : String → Option String) (exec : String → String → ProcOutcome)
        (fileLines : List String) (url : String),
        check_tools_installed which = none → url ∈ readRepos fileLines →
        clone url = none →
        ∃ rep, mainModel which loads clone exec fileLines = Except.ok rep ∧
          alookup url rep =
            some { findings := [], status := [], error := some ("Clone failed: " ++ url) }) := by
  refine ⟨fun _ _ _ => rfl, fun _ _ _ => rfl, ?_⟩
  intro which loads clone exec fileLines url hcheck hmem hclone
  refine ⟨buildReport (dispatch loads clone exec fileLines), ?_, ?_⟩
  · unfold mainModel
    rw [hcheck]
  · unfold dispatch
    rw [alookup_dispatch (fun u => clone_and_scan loads (clone u) (exec u) u) (readRepos fileLines) hmem]
    rw [hclone]
    rfl

/-- Witness for C3_clone_failure on a one-URL input whose clone fails. -/
theorem C3_witness :
    ∃ rep, mainModel whichAll loadsNone cloneFailAll (fun _ => execClean) ["u"] = Except.ok rep ∧
      alookup "u" rep =
        some { findings := [], status := [], error := some ("Clone failed: " ++ "u") } :=
  C3_clone_failure.2.2 whichAll loadsNone cloneFailAll (fun _ => execClean) ["u"] "u"
    rfl (by decide) rfl

/-- C6: when both tool executables resolve, the startup check has no
effect on the run; when either is missing, the process aborts
immediately with a diagnostic that names every missing tool, and no
repository is processed (the run produces no report). -/
theorem C6_startup_tool_check :
    (∀ (which : String → Bool) (loads : String → Option Json)
        (clone : String → Option String) (exec : String → String → ProcOutcome)
        (fileLines : List String),
        which "trufflehog" = true → which "gitleaks" = true →
        mainModel which loads clone exec fileLines =
          Except.ok (buildReport (dispatch loads clone exec fileLines))) ∧
    (∀ (which : String → Bool) (loads : String → Option Json)
        (clone : String → Option String) (exec : String → String → ProcOutcome)
        (fileLines : List String),
        which "trufflehog" = false ∨ which "gitleaks" = false →
        ∃ msg, mainModel which loads clone exec fileLines = Except.error msg ∧
          (which "trufflehog" = false → strContainsSub "trufflehog" msg = true) ∧
          (which "gitleaks" = false → strContainsSub "gitleaks" msg = true)) := by
  constructor
  · intro which loads clone exec fileLines h1 h2
    unfold mainModel check_tools_installed TOOLS
    simp [h1, h2]
  · intro which loads clone exec fileLines h
    have hcheck : ∀ msg, check_tools_installed which = some msg →
        mainModel which loads clone exec fileLines = Except.error msg := by
      intro msg hm
      unfold mainModel
      rw [hm]
    rcases h with h1 | h2
    · by_cases h2 : which "gitleaks" = true
      · refine ⟨"Missing tools: trufflehog", hcheck _ ?_, fun _ => by decide,
          fun hg => absurd h2 (by simp [hg])⟩
        unfold check_tools_installed TOOLS
        simp [h1, h2, joinComma]
      · rw [Bool.not_eq_true] at h2
        refine ⟨"Missing tools: trufflehog, gitleaks", hcheck _ ?_, fun _ => by decide,
          fun _ => by decide⟩
        unfold check_tools_installed TOOLS
        simp [h1, h2, joinComma]
    · by_cases h1 : which "trufflehog" = true
      · refine ⟨"Missing tools: gitleaks", hcheck _ ?_, fun ht => absurd h1 (by simp [ht]),
          fun _ => by decide⟩
        unfold check_tools_installed TOOLS
        simp [h1, h2, joinComma]
      · rw [Bool.not_eq_true] at h1
        refine ⟨"Missing tools: trufflehog, gitleaks", hcheck _ ?_, fun _ => by decide,
          fun _ => by decide⟩
        unfold check_tools_installed TOOLS
        simp [h1, h2, joinComma]

/-- Witness for C6_startup_tool_check with gitleaks missing. -/
theorem C6_witness :
    ∃ msg, mainModel whichOnlyTruffle loadsNone cloneFailAll (fun _ => execClean) ["u"] =
        Except.error msg ∧
      (whichOnlyTruffle "trufflehog" = false → strContainsSub "trufflehog" msg = true) ∧
      (whichOnlyTruffle "gitleaks" = false → strContainsSub "gitleaks" msg = true) :=
  C6_startup_tool_check.2 whichOnlyTruffle loadsNone cloneFailAll (fun _ => execClean) ["u"]
    (Or.inr (by decide))

/-- C10: the global report keeps at most one entry per URL (keys are
nodup), the entry for a URL is the value of the last-completed task for
that URL in the completion sequence, and one task is dispatched per
input occurrence (duplicates included). -/
theorem C10_report_overwrite :
    (∀ completions : List (String × ScanResult),
        ((buildReport completions).map Prod.fst).Nodup) ∧
    (∀ (completions : List (String × ScanResult)) (url : String),
        alookup url (buildReport completions) =
          ((completions.filter (fun p => p.1 = url)).getLast?).map Prod.snd) ∧
    (∀ (loads : String → Option Json) (clone : String → Option String)
        (exec : String → String → ProcOutcome) (fileLines : List String),
        (dispatch loads clone exec fileLines).map Prod.fst = readRepos fileLines) := by
  refine ⟨buildReport_keys_nodup, alookup_buildReport, ?_⟩
  intro loads clone exec fileLines
  unfold dispatch
  induction readRepos fileLines with
  | nil => rfl
  | cons u us ih => simp only [List.map_cons, ih]

/-- C4 counterexample: a gitleaks report whose `Findings` value is the
number `7` makes `len` raise mid-loop; the exception is recorded as the
repository error, but the status map still holds the trufflehog entry
and the findings map holds both tools — they are not left empty. -/
theorem C4_counterexample :
    (clone_and_scan loadsGl (some "/tmp/x") execGl7 "u").status = [("trufflehog", "Clean")] ∧
    (clone_and_scan loadsGl (some "/tmp/x") execGl7 "u").findings.length = 2 ∧
    (clone_and_scan loadsGl (some "/tmp/x") execGl7 "u").error = some (scanErr "u") :=
  ⟨rfl, rfl, rfl⟩

/-- C4 amended: an exception in the tool loop is caught at the
repository level and recorded in the error field, and the overall run is
not aborted (every dispatched URL still gets a report entry); however,
findings and status entries recorded before the exception are retained,
so after a mid-loop exception the maps are non-empty. -/
theorem C4_amended :
    (∀ (loads : String → Option Json) (exec : String → ProcOutcome) (url d : String),
        (clone_and_scan loads (some d) exec url).error ≠ none →
        (clone_and_scan loads (some d) exec url).error = some (scanErr url) ∧
        (clone_and_scan loads (some d) exec url).status ≠ [] ∧
        (clone_and_scan loads (some d) exec url).findings ≠ []) ∧
    (∀ (which : String → Bool) (loads : String → Option Json)
        (clone : String → Option String) (exec : String → String → ProcOutcome)
        (fileLines : List String),
        check_tools_installed which = none →
        ∃ rep, mainModel which loads clone exec fileLines = Except.ok rep ∧
          ∀ url ∈ readRepos fileLines, ∃ e, alookup url rep = some e) := by
  constructor
  · intro loads exec url d herr
    obtain ⟨st1, h1⟩ := Option.isSome_iff_exists.mp
      (statusOf_nokey_isSome loads "trufflehog" (exec "trufflehog"))
    cases h2 : statusOf (run_tool loads "gitleaks" (some "Findings") (exec "gitleaks")).result with
    | some st2 =>
      have hcs : clone_and_scan loads (some d) exec url =
          { findings := [("trufflehog", (run_tool loads "trufflehog" none (exec "trufflehog")).result),
                         ("gitleaks", (run_tool loads "gitleaks" (some "Findings") (exec "gitleaks")).result)],
            status := [("trufflehog", st1), ("gitleaks", st2)], error := none } := by
        rw [clone_and_scan_some_eq, h1, h2]
      rw [hcs] at herr
      exact absurd rfl herr
    | none =>
      have hcs : clone_and_scan loads (some d) exec url =
          { findings := [("trufflehog", (run_tool loads "trufflehog" none (exec "trufflehog")).result),
                         ("gitleaks", (run_tool loads "gitleaks" (some "Findings") (exec "gitleaks")).result)],
            status := [("trufflehog", st1)], error := some (scanErr url) } := by
        rw [clone_and_scan_some_eq, h1, h2]
      rw [hcs]
      exact ⟨rfl, by simp, by simp⟩
  · intro which loads clone exec fileLines hcheck
    refine ⟨buildReport (dispatch loads clone exec fileLines), ?_, ?_⟩
    · unfold mainModel
      rw [hcheck]
    · intro url hmem
      unfold dispatch
      exact ⟨_, alookup_dispatch _ (readRepos fileLines) hmem⟩

/-- Witness for C4_amended at the concrete gitleaks scenario. -/
theorem C4_amended_witness :
    (clone_and_scan loadsGl (some "/tmp/x") execGl7 "u").error = some (scanErr "u") ∧
    (clone_and_scan loadsGl (some "/tmp/x") execGl7 "u").status ≠ [] ∧
    (clone_and_scan loadsGl (some "/tmp/x") execGl7 "u").findings ≠ [] :=
  C4_amended.1 loadsGl execGl7 "u" "/tmp/x" (by decide)

/-- C1: for every recorded (repository, tool) status, the status string
is derived from the tool result by the three-way rule of lines 57-58 —
"Timed out" exactly when the result equals the timeout sentinel,
"{count} findings" with count the Python length when the result is a
non-empty (truthy) value, "Clean" otherwise (None or falsy) — and a tool
whose subprocess timed out is always recorded "Timed out", never "Clean"
and never a finding count. -/
theorem C1_status_rule (loads : String → Option Json) (exec : String → ProcOutcome)
    (url d : String) :
    ((exec "trufflehog" = ProcOutcome.timedOut →
        alookup "trufflehog" (clone_and_scan loads (some d) exec url).status = some "Timed out") ∧
     (exec "gitleaks" = ProcOutcome.timedOut →
        alookup "gitleaks" (clone_and_scan loads (some d) exec url).status = some "Timed out")) ∧
    (∀ tool st, alookup tool (clone_and_scan loads (some d) exec url).status = some st →
        ∃ res, alookup tool (clone_and_scan loads (some d) exec url).findings = some res ∧
          statusOf res = some st ∧
          (isTimeoutSentinel res = true → st = "Timed out") ∧
          (isTimeoutSentinel res = false → ∀ v, res = some v → v.truthy = true →
             ∃ n, pyLen v = some n ∧ st = toString n ++ " findings") ∧
          ((res = none ∨ ∃ v, res = some v ∧ v.truthy = false) → st = "Clean")) := by
  obtain ⟨st1, h1⟩ := Option.isSome_iff_exists.mp
    (statusOf_nokey_isSome loads "trufflehog" (exec "trufflehog"))
  refine ⟨⟨?_, ?_⟩, ?_⟩
  · intro ht
    have hr1 : (run_tool loads "trufflehog" none (exec "trufflehog")).result =
        some (Json.str "timeout") := by rw [ht]; rfl
    have hst1 : statusOf (run_tool loads "trufflehog" none (exec "trufflehog")).result =
        some "Timed out" := by rw [hr1]; exact statusOf_sentinel
    cases h2 : statusOf (run_tool loads "gitleaks" (some "Findings") (exec "gitleaks")).result with
    | some st2 =>
      have hcs : clone_and_scan loads (some d) exec url =
          { findings := [("trufflehog", (run_tool loads "trufflehog" none (exec "trufflehog")).result),
                         ("gitleaks", (run_tool loads "gitleaks" (some "Findings") (exec "gitleaks")).result)],
            status := [("trufflehog", "Timed out"), ("gitleaks", st2)], error := none } := by
        rw [clone_and_scan_some_eq, hst1, h2]
      rw [hcs]
      rfl
    | none =>
      have hcs : clone_and_scan loads (some d) exec url =
          { findings := [("trufflehog", (run_tool loads "trufflehog" none (exec "trufflehog")).result),
                         ("gitleaks", (run_tool loads "gitleaks" (some "Findings") (exec "gitleaks")).result)],
            status := [("trufflehog", "Timed out")], error := some (scanErr url) } := by
        rw [clone_and_scan_some_eq, hst1, h2]
      rw [hcs]
      rfl
  · intro ht
    have hr2 : (run_tool loads "gitleaks" (some "Findings") (exec "gitleaks")).result =
        some (Json.str "timeout") := by rw [ht]; rfl
    have hst2 : statusOf (run_tool loads "gitleaks" (some "Findings") (exec "gitleaks")).result =
        some "Timed out" := by rw [hr2]; exact statusOf_sentinel
    have hcs : clone_and_scan loads (some d) exec url =
        { findings := [("trufflehog", (run_tool loads "trufflehog" none (exec "trufflehog")).result),
                       ("gitleaks", (run_tool loads "gitleaks" (some "Findings") (exec "gitleaks")).result)],
          status := [("trufflehog", st1), ("gitleaks", "Timed out")], error := none } := by
      rw [clone_and_scan_some_eq, h1, hst2]
    rw [hcs]
    rfl
  · intro tool st hst
    cases h2 : statusOf (run_tool loads "gitleaks" (some "Findings") (exec "gitleaks")).result with
    | some st2 =>
      have hcs : clone_and_scan loads (some d) exec url =
          { findings := [("trufflehog", (run_tool loads "trufflehog" none (exec "trufflehog")).result),
                         ("gitleaks", (run_tool loads "gitleaks" (some "Findings") (exec "gitleaks")).result)],
            status := [("trufflehog", st1), ("gitleaks", st2)], error := none } := by
        rw [clone_and_scan_some_eq, h1, h2]
      rw [hcs] at hst ⊢
      simp only [alookup] at hst
      by_cases hT : ("trufflehog" : String) = tool
      · rw [if_pos hT] at hst
        injection hst with hst
        subst hst
        have hlk : alookup tool
            [("trufflehog", (run_tool loads "trufflehog" none (exec "trufflehog")).result),
             ("gitleaks", (run_tool loads "gitleaks" (some "Findings") (exec "gitleaks")).result)] =
            some (run_tool loads "trufflehog" none (exec "trufflehog")).result := by
          simp only [alookup]
          rw [if_pos hT]
        obtain ⟨c1, c2, c3⟩ := statusOf_spec h1
        exact ⟨_, hlk, h1, c1, c2, c3⟩
      · rw [if_neg hT] at hst
        by_cases hG : ("gitleaks" : String) = tool
        · rw [if_pos hG] at hst
          injection hst with hst
          subst hst
          have hlk : alookup tool
              [("trufflehog", (run_tool loads "trufflehog" none (exec "trufflehog")).result),
               ("gitleaks", (run_tool loads "gitleaks" (some "Findings") (exec "gitleaks")).result)] =
              some (run_tool loads "gitleaks" (some "Findings") (exec "gitleaks")).result := by
            simp only [alookup]
            rw [if_neg hT, if_pos hG]
          obtain ⟨c1, c2, c3⟩ := statusOf_spec h2
          exact ⟨_, hlk, h2, c1, c2, c3⟩
        · rw [if_neg hG] at hst
          exact absurd hst (by simp)
    | none =>
      have hcs : clone_and_scan loads (some d) exec url =
          { findings := [("trufflehog", (run_tool loads "trufflehog" none (exec "trufflehog")).result),
                         ("gitleaks", (run_tool loads "gitleaks" (some "Findings") (exec "gitleaks")).result)],
            status := [("trufflehog", st1)], error := some (scanErr url) } := by
        rw [clone_and_scan_some_eq, h1, h2]
      rw [hcs] at hst ⊢
      simp only [alookup] at hst
      by_cases hT : ("trufflehog" : String) = tool
      · rw [if_pos hT] at hst
        injection hst with hst
        subst hst
        have hlk : alookup tool
            [("trufflehog", (run_tool loads "trufflehog" none (exec "trufflehog")).result),
             ("gitleaks", (run_tool loads "gitleaks" (some "Findings") (exec "gitleaks")).result)] =
            some (run_tool loads "trufflehog" none (exec "trufflehog")).result := by
          simp only [alookup]
          rw [if_pos hT]
        obtain ⟨c1, c2, c3⟩ := statusOf_spec h1
        exact ⟨_, hlk, h1, c1, c2, c3⟩
      · rw [if_neg hT] at hst
        exact absurd hst (by simp)

/-- Witness for C1_status_rule when both tools time out. -/
theorem C1_witness :
    alookup "trufflehog" (clone_and_scan loadsNone (some "/d") execTimeoutAll "u").status =
      some "Timed out" :=
  (C1_status_rule loadsNone execTimeoutAll "u" "/d").1.1 rfl
